import Mathlib

/-!
Verification development for the rrvm toolchain (shallow embedding of the C
sources under src/).  The embedding covers:

* the VM data model and dispatch loop (src/vm/vm.h, `run_vm`);
* the interpreter backend hooks (src/backend/interpreter/interpreter.h);
* the TAC builder state and the while-label insertion machinery
  (src/frontend/tac/tac.h);
* the line-oriented lexer (src/frontend/lexer/lexer.c);
* the Horn-clause pretty printer `tac_dump_write` (src/frontend/tac/tac.h).

Modelling conventions:

* the C `word` type (int64_t) is modelled as `Int`, with two's-complement
  wrap-around (`wrap64`) applied exactly where the C arithmetic can leave the
  64-bit range;
* fixed-size C arrays with a separate fill pointer (data stack, tape, pointer
  stack, call stack, block stack, function table) are modelled as total
  functions `Nat -> _` together with the fill pointer, so that stale entries
  beyond the pointer are observable, as they are in C;
* C `assert` failures and the `exit(1)` on an unknown opcode are modelled as
  `Except.error` with the assertion message;
* `size_t` loop depths are modelled as `Int`; the only observation the C code
  makes of a depth is comparison with 0, and the Int model agrees with the
  wrapping size_t model unless more than 2^64 net decrements occur, which is
  impossible for bounded bytecode;
* stdout printing (`interp_print`) is modelled by its state effect (the pop)
  only; the formatted text never feeds back into the machine state.
-/

namespace RRVM

def STACK_SIZE : Nat := 1024
def TAPE_SIZE : Nat := 1024
def CALL_STACK_SIZE : Nat := 256
def BLOCK_STACK_CAP : Nat := 256

/-- Two's-complement wrap of an unbounded integer into the int64_t range,
matching what the 64-bit C `word` arithmetic produces. -/
def wrap64 (z : Int) : Int := (z + 2 ^ 63) % 2 ^ 64 - 2 ^ 63

/-- Pointwise update of a function-modelled array. -/
def upd {ι : Type} [DecidableEq ι] {α : Type} (f : ι → α) (i : ι) (v : α) : ι → α :=
  fun j => if j = i then v else f j

/-- TypeTag enum from src/vm/vm.h (dense values 0..13 in declaration order). -/
inductive TypeTag
  | unknown
  | i8
  | u8
  | i16
  | u16
  | i32
  | u32
  | i64
  | u64
  | f32
  | f64
  | bool
  | ptr
  | void
  deriving DecidableEq, Repr

/-- Numeric value of a TypeTag, matching the C enum assignment. -/
def TypeTag.code : TypeTag → Int
  | .unknown => 0
  | .i8 => 1
  | .u8 => 2
  | .i16 => 3
  | .u16 => 4
  | .i32 => 5
  | .u32 => 6
  | .i64 => 7
  | .u64 => 8
  | .f32 => 9
  | .f64 => 10
  | .bool => 11
  | .ptr => 12
  | .void => 13

/-- Decode a word into a TypeTag the way the C code casts an int to the enum.
Out-of-range values are collapsed to `unknown`; the toolchain only ever emits
in-range tags. -/
def decodeTypeTag (w : Int) : TypeTag :=
  if w = 1 then .i8 else if w = 2 then .u8
  else if w = 3 then .i16 else if w = 4 then .u16
  else if w = 5 then .i32 else if w = 6 then .u32
  else if w = 7 then .i64 else if w = 8 then .u64
  else if w = 9 then .f32 else if w = 10 then .f64
  else if w = 11 then .bool else if w = 12 then .ptr
  else if w = 13 then .void else .unknown

/-- OpCode enum from src/vm/vm.h, in declaration order (dense values 0..34). -/
inductive OpCode
  | nop
  | push
  | add
  | sub
  | mul
  | div
  | rem
  | move
  | load
  | store
  | print
  | deref
  | refer
  | cwhere
  | coffset
  | cindex
  | cset
  | function
  | call
  | creturn
  | cwhile
  | cif
  | celse
  | endblock
  | orassign
  | andassign
  | cnot
  | bitand
  | bitor
  | bitxor
  | lsh
  | lrsh
  | arsh
  | gez
  | halt
  deriving DecidableEq, Repr

/-- Numeric opcode values, matching the C enum declaration order. -/
def OpCode.code : OpCode → Int
  | .nop => 0
  | .push => 1
  | .add => 2
  | .sub => 3
  | .mul => 4
  | .div => 5
  | .rem => 6
  | .move => 7
  | .load => 8
  | .store => 9
  | .print => 10
  | .deref => 11
  | .refer => 12
  | .cwhere => 13
  | .coffset => 14
  | .cindex => 15
  | .cset => 16
  | .function => 17
  | .call => 18
  | .creturn => 19
  | .cwhile => 20
  | .cif => 21
  | .celse => 22
  | .endblock => 23
  | .orassign => 24
  | .andassign => 25
  | .cnot => 26
  | .bitand => 27
  | .bitor => 28
  | .bitxor => 29
  | .lsh => 30
  | .lrsh => 31
  | .arsh => 32
  | .gez => 33
  | .halt => 34

/-- Decode a bytecode word into an opcode; `none` corresponds to the dispatch
loop's `default:` arm (unknown opcode, fatal). -/
def decodeOp (w : Int) : Option OpCode :=
  if w = 0 then some .nop
  else if w = 1 then some .push
  else if w = 2 then some .add
  else if w = 3 then some .sub
  else if w = 4 then some .mul
  else if w = 5 then some .div
  else if w = 6 then some .rem
  else if w = 7 then some .move
  else if w = 8 then some .load
  else if w = 9 then some .store
  else if w = 10 then some .print
  else if w = 11 then some .deref
  else if w = 12 then some .refer
  else if w = 13 then some .cwhere
  else if w = 14 then some .coffset
  else if w = 15 then some .cindex
  else if w = 16 then some .cset
  else if w = 17 then some .function
  else if w = 18 then some .call
  else if w = 19 then some .creturn
  else if w = 20 then some .cwhile
  else if w = 21 then some .cif
  else if w = 22 then some .celse
  else if w = 23 then some .endblock
  else if w = 24 then some .orassign
  else if w = 25 then some .andassign
  else if w = 26 then some .cnot
  else if w = 27 then some .bitand
  else if w = 28 then some .bitor
  else if w = 29 then some .bitxor
  else if w = 30 then some .lsh
  else if w = 31 then some .lrsh
  else if w = 32 then some .arsh
  else if w = 33 then some .gez
  else if w = 34 then some .halt
  else none

/-- Block-stack entry (`block_entry` in src/vm/vm.h): block kind and saved ip. -/
structure BlockEntry where
  type : OpCode
  ip : Nat
  deriving DecidableEq, Repr

/-- VM state from src/vm/vm.h.  Bounded C arrays are modelled as total
functions with the corresponding fill pointer; entries beyond the pointer are
stale, exactly as in C. -/
structure VMState where
  code : List Int
  ip : Nat
  stack : Nat → Int
  sp : Nat
  types : Nat → TypeTag
  tape : Nat → Int
  tapeTypes : Nat → TypeTag
  tp : Nat
  tpStack : Nat → Nat
  tpSp : Nat
  functions : Nat → Nat
  functionsCount : Nat
  callStack : Nat → Nat × Nat
  callSp : Nat
  fp : Nat
  blockStack : Nat → BlockEntry
  blockSp : Nat

/-- Word at bytecode position `i`; the C code only reads in-bounds positions
(guarded by asserts), so the default value is never observed. -/
def VMState.codeAt (st : VMState) (i : Nat) : Int := st.code.getD i 0

/-- vm_push from src/vm/vm.h: bounds-checked write of a word at stack[sp].
Note that it does not touch the parallel `types` array. -/
def vm_push (st : VMState) (imm : Int) : Except String VMState :=
  if st.sp < STACK_SIZE then
    .ok { st with stack := upd st.stack st.sp imm, sp := st.sp + 1 }
  else .error "Stack overflow"

/-- vm_pop from src/vm/vm.h. -/
def vm_pop (st : VMState) : Except String (Int × VMState) :=
  if 0 < st.sp then .ok (st.stack (st.sp - 1), { st with sp := st.sp - 1 })
  else .error "Stack underflow"

/-- vm_push_tp from src/vm/vm.h (pointer-stack push). -/
def vm_push_tp (st : VMState) (tpVal : Nat) : Except String VMState :=
  if st.tpSp < TAPE_SIZE then
    .ok { st with tpStack := upd st.tpStack st.tpSp tpVal, tpSp := st.tpSp + 1 }
  else .error "pointer stack overflow"

/-- vm_pop_tp from src/vm/vm.h (pointer-stack pop). -/
def vm_pop_tp (st : VMState) : Except String (Nat × VMState) :=
  if 0 < st.tpSp then .ok (st.tpStack (st.tpSp - 1), { st with tpSp := st.tpSp - 1 })
  else .error "pointer stack underflow"

/-! Interpreter backend hooks (src/backend/interpreter/interpreter.h).
The binary-op scalar functions are given the signature
`Int → Int → Except String Int` so that the `assert`s inside `div_fn` and
`rem_impl` become errors. -/

def add_fn (a b : Int) : Except String Int := .ok (wrap64 (a + b))

def sub_fn (a b : Int) : Except String Int := .ok (wrap64 (a - b))

def mul_fn (a b : Int) : Except String Int := .ok (wrap64 (a * b))

def div_fn (a b : Int) : Except String Int :=
  if b = 0 then .error "Division by zero" else .ok (wrap64 (Int.tdiv a b))

def rem_impl (a b : Int) : Except String Int :=
  if b = 0 then .error "Modulo by zero" else .ok (Int.tmod a b)

def or_impl (a b : Int) : Except String Int := .ok (if a ≠ 0 ∨ b ≠ 0 then 1 else 0)

def and_impl (a b : Int) : Except String Int := .ok (if a ≠ 0 ∧ b ≠ 0 then 1 else 0)

def bitand_impl (a b : Int) : Except String Int := .ok (Int.land a b)

def bitor_impl (a b : Int) : Except String Int := .ok (Int.lor a b)

def bitxor_impl (a b : Int) : Except String Int := .ok (Int.xor a b)

/-- `a << b`: defined C behaviour (0 ≤ b < 64, it is a plain doubling chain)
modelled with two's-complement wrap. -/
def lsh_impl (a b : Int) : Except String Int := .ok (wrap64 (a * 2 ^ b.toNat))

/-- `((uint64_t)a) >> b`: logical shift on the unsigned reinterpretation. -/
def lrsh_impl (a b : Int) : Except String Int :=
  .ok (wrap64 ((a % 2 ^ 64) / 2 ^ b.toNat))

/-- `a >> b` on a signed word: arithmetic shift, i.e. floor division. -/
def arsh_impl (a b : Int) : Except String Int := .ok (Int.fdiv a (2 ^ b.toNat))

/-- interp_push: push the value and record its TypeTag at the new top slot. -/
def interp_push (st : VMState) (type : TypeTag) (imm : Int) : Except String VMState := do
  let st1 ← vm_push st imm
  .ok { st1 with types := upd st1.types (st1.sp - 1) type }

/-- interp_move: adjust tp by a signed immediate with bounds checks. -/
def interp_move (st : VMState) (imm : Int) : Except String VMState :=
  if imm < 0 then
    let step := (-imm).toNat
    if step ≤ st.tp then .ok { st with tp := st.tp - step }
    else .error "Tape pointer underflow"
  else
    if st.tp + imm.toNat < TAPE_SIZE then .ok { st with tp := st.tp + imm.toNat }
    else .error "Tape pointer overflow"

/-- interp_load: push tape[tp] together with its recorded tape type. -/
def interp_load (st : VMState) : Except String VMState := do
  let st1 ← vm_push st (st.tape st.tp)
  .ok { st1 with types := upd st1.types (st1.sp - 1) (st.tapeTypes st.tp) }

/-- interp_store: pop a value and propagate it and its tag into the tape cell. -/
def interp_store (st : VMState) : Except String VMState :=
  if 0 < st.sp then do
    let t := st.types (st.sp - 1)
    let (v, st1) ← vm_pop st
    .ok { st1 with tape := upd st1.tape st1.tp v,
                   tapeTypes := upd st1.tapeTypes st1.tp t }
  else .error "interp_store: empty stack"

/-- interp_binary: pop two operands with identical tags, apply the scalar
function as `fn(second-from-top, top)`, push the result with the common tag. -/
def interp_binary (st : VMState) (fn : Int → Int → Except String Int) :
    Except String VMState :=
  if 2 ≤ st.sp then
    let top := st.types (st.sp - 1)
    let next := st.types (st.sp - 2)
    if top = next then do
      let (a, st1) ← vm_pop st
      let (b, st2) ← vm_pop st1
      let r ← fn b a
      let st3 ← vm_push st2 r
      .ok { st3 with types := upd st3.types (st3.sp - 1) top }
    else .error "interp_binary: type mismatch"
  else .error "interp_binary: stack underflow"

def interp_add (st : VMState) : Except String VMState := interp_binary st add_fn

def interp_sub (st : VMState) : Except String VMState := interp_binary st sub_fn

def interp_mul (st : VMState) : Except String VMState := interp_binary st mul_fn

def interp_div (st : VMState) : Except String VMState := interp_binary st div_fn

def interp_rem (st : VMState) : Except String VMState := interp_binary st rem_impl

def interp_orassign (st : VMState) : Except String VMState := interp_binary st or_impl

def interp_andassign (st : VMState) : Except String VMState := interp_binary st and_impl

def interp_bitand (st : VMState) : Except String VMState := interp_binary st bitand_impl

def interp_bitor (st : VMState) : Except String VMState := interp_binary st bitor_impl

def interp_bitxor (st : VMState) : Except String VMState := interp_binary st bitxor_impl

def interp_lsh (st : VMState) : Except String VMState := interp_binary st lsh_impl

def interp_lrsh (st : VMState) : Except String VMState := interp_binary st lrsh_impl

def interp_arsh (st : VMState) : Except String VMState := interp_binary st arsh_impl

/-- interp_print: pops the value (the formatted stdout text is not modelled). -/
def interp_print (st : VMState) : Except String VMState :=
  if 0 < st.sp then .ok { st with sp := st.sp - 1 }
  else .error "interp_print: empty stack"

/-- interp_not: unary logical negation. -/
def interp_not (st : VMState) : Except String VMState := do
  let (v, st1) ← vm_pop st
  vm_push st1 (if v = 0 then 1 else 0)

/-- interp_gez: unary greater-or-equal-zero test. -/
def interp_gez (st : VMState) : Except String VMState := do
  let (v, st1) ← vm_pop st
  vm_push st1 (if 0 ≤ v then 1 else 0)

/-- interp_deref: save tp on the pointer stack, then chase tp := tape[tp]
(which must be a valid tape index). -/
def interp_deref (st : VMState) : Except String VMState := do
  let st1 ← vm_push_tp st st.tp
  let newTp := st1.tape st1.tp
  if 0 ≤ newTp ∧ newTp.toNat < TAPE_SIZE then .ok { st1 with tp := newTp.toNat }
  else .error "DEREF produced invalid tape index"

/-- interp_refer: pop the pointer stack back into tp. -/
def interp_refer (st : VMState) : Except String VMState := do
  let (oldTp, st1) ← vm_pop_tp st
  .ok { st1 with tp := oldTp }

/-- interp_where: push the current tp as a data word (no type-tag write). -/
def interp_where (st : VMState) : Except String VMState :=
  vm_push st (Int.ofNat st.tp)

/-- interp_offset: adjust tp by the signed immediate with bounds checks. -/
def interp_offset (st : VMState) (imm : Int) : Except String VMState :=
  if imm < 0 then
    let step := (-imm).toNat
    if step ≤ st.tp then .ok { st with tp := st.tp - step }
    else .error "OFFSET underflow"
  else
    if st.tp + imm.toNat < TAPE_SIZE then .ok { st with tp := st.tp + imm.toNat }
    else .error "OFFSET overflow"

/-- interp_index: shift tp by the signed value stored at tape[tp]. -/
def interp_index (st : VMState) : Except String VMState :=
  let delta := st.tape st.tp
  if delta < 0 then
    let step := (-delta).toNat
    if step ≤ st.tp then .ok { st with tp := st.tp - step }
    else .error "INDEX underflow"
  else
    if st.tp + delta.toNat < TAPE_SIZE then .ok { st with tp := st.tp + delta.toNat }
    else .error "INDEX overflow"

/-- interp_set: store the immediate and its tag into the tape cell at tp. -/
def interp_set (st : VMState) (type : TypeTag) (imm : Int) : Except String VMState :=
  .ok { st with tape := upd st.tape st.tp imm,
                tapeTypes := upd st.tapeTypes st.tp type }

/-! Structured-control scanning loops.  Each interpreter hook that skips over
bytecode has its own inline `while (i < code_len)` loop in C; they are
transcribed one-to-one below as fuel-indexed recursions.  The fuel only has to
dominate the number of loop iterations (each iteration advances `i` by at
least one, so `code_len + 1` always suffices); on fuel exhaustion the
functions return the same `code_len` the loop-exit path returns, a case the
hooks never reach.  Mirroring the C faithfully, the depth bookkeeping does
NOT skip the immediate of a nested `While` (or `Function`), and the
immediate-skip arm only fires in the final `else`. -/

/-- Scan loop of interp_if: position just past the first `Else` or `EndBlock`
at depth zero, starting at `i`; `none` when the loop runs off the end of the
code (the hook then sets ip to code_len). -/
def scan_if (code : List Int) (len : Nat) : Nat → Nat → Int → Option Nat
  | 0, _, _ => none
  | fuel + 1, i, depth =>
    if i < len then
      let op := decodeOp (code.getD i 0)
      let j := i + 1
      if op = some .cif ∨ op = some .cwhile then scan_if code len fuel j (depth + 1)
      else if op = some .celse ∧ depth = 0 then some j
      else if op = some .endblock ∧ depth = 0 then some j
      else if op = some .celse ∨ op = some .endblock then scan_if code len fuel j (depth - 1)
      else if op = some .push ∨ op = some .cset then scan_if code len fuel (j + 2) depth
      else if op = some .move ∨ op = some .function ∨ op = some .call ∨ op = some .cwhile then
        scan_if code len fuel (j + 1) depth
      else scan_if code len fuel j depth
    else none

/-- Scan loop of interp_else: position just past the matching `EndBlock` at
depth zero; `none` when the loop runs off the end of the code. -/
def scan_else (code : List Int) (len : Nat) : Nat → Nat → Int → Option Nat
  | 0, _, _ => none
  | fuel + 1, i, depth =>
    if i < len then
      let op := decodeOp (code.getD i 0)
      let j := i + 1
      if op = some .cif ∨ op = some .cwhile then scan_else code len fuel j (depth + 1)
      else if op = some .endblock ∧ depth = 0 then some j
      else if op = some .celse ∨ op = some .endblock then scan_else code len fuel j (depth - 1)
      else if op = some .push ∨ op = some .cset then scan_else code len fuel (j + 2) depth
      else if op = some .move ∨ op = some .function ∨ op = some .call ∨ op = some .cwhile then
        scan_else code len fuel (j + 1) depth
      else scan_else code len fuel j depth
    else none

/-- Scan loop of interp_while (same loop body as interp_else's in C). -/
def scan_while (code : List Int) (len : Nat) : Nat → Nat → Int → Option Nat
  | 0, _, _ => none
  | fuel + 1, i, depth =>
    if i < len then
      let op := decodeOp (code.getD i 0)
      let j := i + 1
      if op = some .cif ∨ op = some .cwhile then scan_while code len fuel j (depth + 1)
      else if op = some .endblock ∧ depth = 0 then some j
      else if op = some .celse ∨ op = some .endblock then scan_while code len fuel j (depth - 1)
      else if op = some .push ∨ op = some .cset then scan_while code len fuel (j + 2) depth
      else if op = some .move ∨ op = some .function ∨ op = some .call ∨ op = some .cwhile then
        scan_while code len fuel (j + 1) depth
      else scan_while code len fuel j depth
    else none

/-- Scan loop of interp_function: depth also increments on nested `Function`. -/
def scan_function (code : List Int) (len : Nat) : Nat → Nat → Int → Option Nat
  | 0, _, _ => none
  | fuel + 1, i, depth =>
    if i < len then
      let op := decodeOp (code.getD i 0)
      let j := i + 1
      if op = some .function ∨ op = some .cif ∨ op = some .cwhile then
        scan_function code len fuel j (depth + 1)
      else if op = some .endblock ∧ depth = 0 then some j
      else if op = some .celse ∨ op = some .endblock then scan_function code len fuel j (depth - 1)
      else if op = some .push ∨ op = some .cset then scan_function code len fuel (j + 2) depth
      else if op = some .move ∨ op = some .function ∨ op = some .call ∨ op = some .cwhile then
        scan_function code len fuel (j + 1) depth
      else scan_function code len fuel j depth
    else none

/-- interp_function: record the function's start ip (if the index fits the
256-entry table), then skip the body to just past the matching EndBlock
(falling back to end-of-code when no EndBlock is found). -/
def interp_function (st : VMState) (funcIndex : Int) : Except String VMState :=
  if funcIndex < 0 ∨ 256 ≤ funcIndex.toNat then .ok st
  else
    let fi := funcIndex.toNat
    let st1 := { st with functions := upd st.functions fi st.ip,
                         functionsCount := max st.functionsCount (fi + 1) }
    let len := st1.code.length
    .ok { st1 with ip := (scan_function st1.code len (len + 1) st1.ip 0).getD len }

/-- interp_call: push (return_ip, old_fp), start a new frame at sp, jump. -/
def interp_call (st : VMState) (funcIndex : Int) : Except String VMState :=
  if st.callSp < CALL_STACK_SIZE then
    if 0 ≤ funcIndex ∧ funcIndex.toNat < st.functionsCount then
      .ok { st with callStack := upd st.callStack st.callSp (st.ip, st.fp),
                    callSp := st.callSp + 1,
                    fp := st.sp,
                    ip := st.functions funcIndex.toNat }
    else .error "call to unknown function index"
  else .error "call stack overflow"

/-- interp_return: pop the return value if any, tear down locals, restore the
caller frame, and push the return value (with no type-tag write). -/
def interp_return (st : VMState) : Except String VMState :=
  if 0 < st.callSp then do
    let (ret, st1) ←
      if st.fp < st.sp then vm_pop st else pure ((0 : Int), st)
    let (retIp, oldFp) := st1.callStack (st1.callSp - 1)
    let st2 := { st1 with callSp := st1.callSp - 1, sp := st1.fp, fp := oldFp, ip := retIp }
    vm_push st2 ret
  else .error "return with empty call stack"

/-- interp_if: pop the condition; on nonzero push an If marker and fall
through, on zero skip to just past the first Else/EndBlock at depth zero. -/
def interp_if (st : VMState) : Except String VMState := do
  let (cond, st1) ← vm_pop st
  if cond = 0 then
    let len := st1.code.length
    .ok { st1 with ip := (scan_if st1.code len (len + 1) st1.ip 0).getD len }
  else
    if st1.blockSp < BLOCK_STACK_CAP then
      .ok { st1 with blockStack := upd st1.blockStack st1.blockSp ⟨.cif, st1.ip⟩,
                     blockSp := st1.blockSp + 1 }
    else .error "block stack overflow"

/-- interp_else: skip to just past the matching EndBlock; when the EndBlock is
found, pop the If marker if one is present (no abort when the block stack is
empty); when no EndBlock is found, set ip to end-of-code without popping. -/
def interp_else (st : VMState) : Except String VMState :=
  let len := st.code.length
  match scan_else st.code len (len + 1) st.ip 0 with
  | some j =>
      .ok { st with ip := j,
                    blockSp := if 0 < st.blockSp then st.blockSp - 1 else st.blockSp }
  | none => .ok { st with ip := len }

/-- interp_endblock: if the top of the block stack is a While marker, jump
back to its stored condition ip (without popping); otherwise pop the marker.
An empty block stack is silently tolerated. -/
def interp_endblock (st : VMState) : Except String VMState :=
  if 0 < st.blockSp then
    let top := st.blockStack (st.blockSp - 1)
    if top.type = .cwhile then .ok { st with ip := top.ip }
    else .ok { st with blockSp := st.blockSp - 1 }
  else .ok st

/-- interp_while: pop the already-computed condition; on nonzero push a While
marker storing the cond_ip immediate (cast to size_t, i.e. taken mod 2^64)
and fall through into the body, on zero skip to just past the matching
EndBlock. -/
def interp_while (st : VMState) (condIp : Int) : Except String VMState := do
  let (cond, st1) ← vm_pop st
  if cond = 0 then
    let len := st1.code.length
    .ok { st1 with ip := (scan_while st1.code len (len + 1) st1.ip 0).getD len }
  else
    if st1.blockSp < BLOCK_STACK_CAP then
      .ok { st1 with
              blockStack := upd st1.blockStack st1.blockSp ⟨.cwhile, (condIp % 2 ^ 64).toNat⟩,
              blockSp := st1.blockSp + 1 }
    else .error "block stack overflow"

/-! Dispatch loop (run_vm in src/vm/vm.h). -/

/-- Result of one dispatch step: continue, or stop at `Halt`. -/
inductive StepR
  | next (st : VMState)
  | halted (st : VMState)

/-- One iteration of the run_vm dispatch loop: decode the opcode at ip,
decode its immediates (asserting they are present), invoke the interpreter
hook.  Callers guarantee `st.ip < st.code.length`. -/
def stepVM (st : VMState) : Except String StepR := do
  let len := st.code.length
  let w := st.codeAt st.ip
  let st0 := { st with ip := st.ip + 1 }
  match decodeOp w with
  | none => .error "Unknown opcode"
  | some op =>
    match op with
    | .nop => .ok (.next st0)
    | .push =>
        if st0.ip + 1 < len then
          let t := decodeTypeTag (st0.codeAt st0.ip)
          let imm := st0.codeAt (st0.ip + 1)
          let st1 := { st0 with ip := st0.ip + 2 }
          .next <$> interp_push st1 t imm
        else .error "Unexpected end of code (PUSH expects type + imm)"
    | .add => .next <$> interp_add st0
    | .sub => .next <$> interp_sub st0
    | .mul => .next <$> interp_mul st0
    | .div => .next <$> interp_div st0
    | .rem => .next <$> interp_rem st0
    | .move =>
        if st0.ip < len then
          let imm := st0.codeAt st0.ip
          let st1 := { st0 with ip := st0.ip + 1 }
          .next <$> interp_move st1 imm
        else .error "Unexpected end of code (MOVE expects imm)"
    | .load => .next <$> interp_load st0
    | .store => .next <$> interp_store st0
    | .print => .next <$> interp_print st0
    | .deref => .next <$> interp_deref st0
    | .refer => .next <$> interp_refer st0
    | .cwhere => .next <$> interp_where st0
    | .coffset =>
        if st0.ip < len then
          let imm := st0.codeAt st0.ip
          let st1 := { st0 with ip := st0.ip + 1 }
          .next <$> interp_offset st1 imm
        else .error "Unexpected end of code (OFFSET expects imm)"
    | .cindex => .next <$> interp_index st0
    | .cset =>
        if st0.ip + 1 < len then
          let t := decodeTypeTag (st0.codeAt st0.ip)
          let imm := st0.codeAt (st0.ip + 1)
          let st1 := { st0 with ip := st0.ip + 2 }
          .next <$> interp_set st1 t imm
        else .error "Unexpected end of code (SET expects type + imm)"
    | .function =>
        if st0.ip < len then
          let fidx := st0.codeAt st0.ip
          let st1 := { st0 with ip := st0.ip + 1 }
          .next <$> interp_function st1 fidx
        else .error "Unexpected end of code (FUNCTION expects imm)"
    | .call =>
        if st0.ip < len then
          let fidx := st0.codeAt st0.ip
          let st1 := { st0 with ip := st0.ip + 1 }
          .next <$> interp_call st1 fidx
        else .error "Unexpected end of code (CALL expects imm)"
    | .creturn => .next <$> interp_return st0
    | .cwhile =>
        if st0.ip < len then
          let condIp := st0.codeAt st0.ip
          let st1 := { st0 with ip := st0.ip + 1 }
          .next <$> interp_while st1 condIp
        else .error "Unexpected end of code (WHILE expects imm)"
    | .cif => .next <$> interp_if st0
    | .celse => .next <$> interp_else st0
    | .endblock => .next <$> interp_endblock st0
    | .orassign => .next <$> interp_orassign st0
    | .andassign => .next <$> interp_andassign st0
    | .cnot => .next <$> interp_not st0
    | .bitand => .next <$> interp_bitand st0
    | .bitor => .next <$> interp_bitor st0
    | .bitxor => .next <$> interp_bitxor st0
    | .lsh => .next <$> interp_lsh st0
    | .lrsh => .next <$> interp_lrsh st0
    | .arsh => .next <$> interp_arsh st0
    | .gez => .next <$> interp_gez st0
    | .halt => .ok (.halted st0)

/-- Fuel-bounded iteration of the dispatch loop.  `ok none` means the fuel ran
out (the run is undetermined at that bound); `ok (some st)` means the program
stopped at Halt or by running off the end of the code. -/
def runLoop : Nat → VMState → Except String (Option VMState)
  | 0, _ => .ok none
  | fuel + 1, st =>
    if st.ip < st.code.length then
      match stepVM st with
      | .error e => .error e
      | .ok (.halted st1) => .ok (some st1)
      | .ok (.next st1) => runLoop fuel st1
    else .ok (some st)

/-- Zero-initialised VM state at run_vm entry.  The C run_vm zeroes all the
counters, the tape and both type arrays; the data-stack words themselves are
left uninitialised in C and modelled as 0 here (no claim reads them before a
write). -/
def initVM (code : List Int) : VMState :=
  { code := code
    ip := 0
    stack := fun _ => 0
    sp := 0
    types := fun _ => .unknown
    tape := fun _ => 0
    tapeTypes := fun _ => .unknown
    tp := 0
    tpStack := fun _ => 0
    tpSp := 0
    functions := fun _ => 0
    functionsCount := 0
    callStack := fun _ => (0, 0)
    callSp := 0
    fp := 0
    blockStack := fun _ => ⟨.nop, 0⟩
    blockSp := 0 }

/-- run_vm with the interpreter backend, bounded by `fuel` dispatch steps. -/
def run_vm (code : List Int) (fuel : Nat) : Except String (Option VMState) :=
  runLoop fuel (initVM code)

/-! TAC IR and builder state (src/frontend/tac/tac.h). -/

/-- TacOp enum, in declaration order. -/
inductive TacOp
  | const
  | add
  | sub
  | mul
  | div
  | rem
  | bitand
  | bitor
  | bitxor
  | lsh
  | lrsh
  | arsh
  | tor
  | tand
  | tnot
  | gez
  | move
  | load
  | store
  | print
  | printchar
  | deref
  | refer
  | twhere
  | toffset
  | tindex
  | tset
  | label
  | jmp
  | jz
  | call
  | ret
  deriving DecidableEq, Repr

/-- tac_instr: one TAC instruction.  C designated initialisers zero-fill the
omitted fields, hence the 0 / unknown defaults. -/
structure tac_instr where
  op : TacOp
  dst : Int := 0
  lhs : Int := 0
  rhs : Int := 0
  imm : Int := 0
  dst_type : TypeTag := .unknown
  deriving DecidableEq, Repr

/-- tac_block_entry: block-stack element of the TAC builder. -/
structure tac_block_entry where
  type : OpCode
  start_label : Int
  else_label : Int
  end_label : Int
  cond_vm_ip : Option Nat
  deriving DecidableEq, Repr

/-- tac_backend_state: the TAC builder's user-data.  The virtual operand
stack is a list with its head as top-of-stack; `temp_types` is modelled as a
total map (the C `realloc` growth with TYPE_UNKNOWN fill is a memory-management
detail), and the two VM-ip maps are lists of length vm->code_len whose unset
entries hold -1 as in C. -/
structure tac_backend_state where
  prog : List tac_instr
  stack : List Int
  next_temp : Int
  tp : Nat
  label_counter : Int
  block_stack : List tac_block_entry
  func_label : Nat → Int
  vm_ip_to_tac_index : List Int
  vm_ip_to_tac_label : List Int
  temp_types : Int → TypeTag

/-- tac_record_vm_ip: record vm opcode ip -> current TAC instruction count. -/
def tac_record_vm_ip (s : tac_backend_state) (vmIp : Nat) : tac_backend_state :=
  if vmIp < s.vm_ip_to_tac_index.length then
    { s with vm_ip_to_tac_index :=
        s.vm_ip_to_tac_index.set vmIp (Int.ofNat s.prog.length) }
  else s

/-- Constructor for the `(tac_instr){.op=TAC_CONST, .dst=d, .imm=v, .dst_type=t}`
literal (remaining fields zero-filled). -/
def tacConstInstr (dst imm : Int) (t : TypeTag) : tac_instr :=
  { op := .const, dst := dst, imm := imm, dst_type := t }

/-- Constructor for the `(tac_instr){.op=TAC_SET, .lhs=p, .rhs=v}` literal. -/
def tacSetInstr (lhs rhs : Int) : tac_instr :=
  { op := .tset, lhs := lhs, rhs := rhs }

/-- Constructor for the `(tac_instr){.op=TAC_WHERE, .dst=d, .dst_type=t}` literal. -/
def tacWhereInstr (dst : Int) (t : TypeTag) : tac_instr :=
  { op := .twhere, dst := dst, dst_type := t }

/-- Constructor for the `(tac_instr){.op=TAC_LABEL, .imm=l}` literal. -/
def tacLabelInstr (label : Int) : tac_instr :=
  { op := .label, imm := label }

/-- Constructor for the `(tac_instr){.op=TAC_RET}` literal. -/
def tacRetInstr : tac_instr :=
  { op := .ret }

/-- tac_fix_vm_map_after_insert: after inserting at `idx`, bump every recorded
(non-negative) vm-ip mapping that pointed at or after the insertion index.
The vm_ip_to_tac_label map is keyed by vm ip and is deliberately untouched. -/
def tac_fix_vm_map_after_insert (s : tac_backend_state) (idx : Nat) : tac_backend_state :=
  let bumped := s.vm_ip_to_tac_index.map
    (fun v => if 0 ≤ v ∧ (idx : Int) ≤ v then v + 1 else v)
  { s with vm_ip_to_tac_index := bumped }

/-- tac_insert_at: insert an instruction at `idx`, clamped to the current
count, shifting the rest forward. -/
def tac_insert_at (prog : List tac_instr) (idx : Nat) (instr : tac_instr) :
    List tac_instr :=
  List.insertIdx (min idx prog.length) instr prog

/-- tac_insert_label_at_idx: before shifting the vm->tac index map, assign
`label` in vm_ip_to_tac_label to every vm ip whose index entry equals `idx`;
then insert the Label instruction at `idx` and fix the index map. -/
def tac_insert_label_at_idx (s : tac_backend_state) (idx : Nat) (label : Int) :
    tac_backend_state :=
  let newLbl := List.zipWith (fun v l => if v = (idx : Int) then label else l)
    s.vm_ip_to_tac_index s.vm_ip_to_tac_label
  let s1 := { s with vm_ip_to_tac_label := newLbl }
  let s2 := { s1 with prog := tac_insert_at s1.prog idx (tacLabelInstr label) }
  tac_fix_vm_map_after_insert s2 idx

/-- tac_set: lower `Set(t,v)`.  Allocate a temp for the immediate and emit a
Const; peek (do not pop) the top of the virtual operand stack as the pointer
temp, materialising a Where-produced pointer temp only when the stack is
empty; finally emit the Set. -/
def tac_set (s : tac_backend_state) (opcodeIp : Nat) (type : TypeTag) (imm : Int) :
    tac_backend_state :=
  let s0 := tac_record_vm_ip s opcodeIp
  let valtmp := s0.next_temp
  let s1 := { s0 with next_temp := s0.next_temp + 1,
                      temp_types := upd s0.temp_types valtmp type,
                      prog := s0.prog ++ [tacConstInstr valtmp imm type] }
  match s1.stack with
  | lhs :: _ =>
      { s1 with prog := s1.prog ++ [tacSetInstr lhs valtmp] }
  | [] =>
      let lhs := s1.next_temp
      let s2 := { s1 with next_temp := s1.next_temp + 1,
                          temp_types := upd s1.temp_types lhs .ptr,
                          prog := s1.prog ++ [tacWhereInstr lhs .ptr],
                          stack := lhs :: s1.stack }
      { s2 with prog := s2.prog ++ [tacSetInstr lhs valtmp] }

/-! Line-oriented lexer (src/frontend/lexer/lexer.c).  Allocation failures
(return -1) have no counterpart in the embedding; the mid-line-comment
rejection (-2) is the observable error path. -/

/-- C `isspace` on the default locale: space, \t, \n, \v, \f, \r. -/
def isSpaceC (c : Char) : Bool :=
  c = ' ' ∨ c = '\t' ∨ c = '\n' ∨ c = '\x0b' ∨ c = '\x0c' ∨ c = '\r'

/-- lexer_is_comment_line: first non-space character is '#' (empty lines are
not comments). -/
def lexer_is_comment_line (line : List Char) : Bool :=
  match line.dropWhile isSpaceC with
  | [] => false
  | c :: _ => c = '#'

/-- Token scan (the inner `while (*p && !isspace(*p))` loop): take characters
up to the next whitespace, failing with `none` on a mid-token '#'. -/
def lex_scan_token : List Char → Option (List Char × List Char)
  | [] => some ([], [])
  | c :: cs =>
    if isSpaceC c then some ([], c :: cs)
    else if c = '#' then none
    else
      match lex_scan_token cs with
      | none => none
      | some (tok, rest) => some (c :: tok, rest)

/-- Main tokenize loop of lexer_tokenize_line: skip whitespace, reject a '#'
at token start, scan a token, repeat.  The fuel dominates the number of loop
iterations (each consumes at least one character, so `length + 1` suffices);
the fuel-exhaustion arm is unreachable at that bound. -/
def lex_loop : Nat → List Char → List String → Except Int (List String)
  | 0, _, _ => .error (-1)
  | fuel + 1, l, acc =>
    match l.dropWhile isSpaceC with
    | [] => .ok acc.reverse
    | c :: cs =>
      if c = '#' then .error (-2)
      else
        match lex_scan_token (c :: cs) with
        | none => .error (-2)
        | some (tok, rest) => lex_loop fuel rest (String.mk tok :: acc)

/-- lexer_tokenize_line: whole-line comments (first non-space char '#') and
empty lines yield zero tokens; otherwise tokenize, rejecting any mid-line '#'
with error code -2. -/
def lexer_tokenize_line (line : List Char) : Except Int (List String) :=
  match line.dropWhile isSpaceC with
  | [] => .ok []
  | c :: _ =>
    if c = '#' then .ok []
    else lex_loop (line.length + 1) line []

/-! Horn-clause pretty printer (tac_dump_write / tac_print_goal in
src/frontend/tac/tac.h). -/

/-- type_tag_name from src/frontend/tac/tac.h. -/
def type_tag_name : TypeTag → String
  | .i8 => "i8"
  | .u8 => "u8"
  | .i16 => "i16"
  | .u16 => "u16"
  | .i32 => "i32"
  | .u32 => "u32"
  | .i64 => "i64"
  | .u64 => "u64"
  | .f32 => "f32"
  | .f64 => "f64"
  | .bool => "bool"
  | .ptr => "ptr"
  | .void => "void"
  | .unknown => "unknown"

/-- Lower-case hex rendering of a natural number, zero-padded to `width`
digits (the `0x%08x` / `0x%016x` formats). -/
def hexPad (n : Nat) (width : Nat) : String :=
  let ds := Nat.toDigits 16 n
  String.mk (List.replicate (width - ds.length) '0') ++ String.mk ds

/-- Decimal rendering of a temp operand, `t%d`. -/
def tOperand (n : Int) : String := "t" ++ toString n

/-- Decimal rendering of a label operand, `l%d`. -/
def lOperand (n : Int) : String := "l" ++ toString n

/-- tac_print_goal: render one TAC instruction as a Prolog goal.  The float
`Const` branches in C additionally append the bit-cast decimal value as a
block comment via printf %f; that IEEE-754 decimal rendering is not modelled
(no theorem below evaluates a float constant), only the hex bit pattern is. -/
def tac_print_goal (i : tac_instr) : String :=
  match i.op with
  | .const =>
      if i.dst_type = .f32 then
        "const(" ++ tOperand i.dst ++ ", f32, 0x" ++
          hexPad ((i.imm % 2 ^ 32).toNat) 8 ++ ")"
      else if i.dst_type = .f64 then
        "const(" ++ tOperand i.dst ++ ", f64, 0x" ++
          hexPad ((i.imm % 2 ^ 64).toNat) 16 ++ ")"
      else
        "const(" ++ tOperand i.dst ++ ", " ++ type_tag_name i.dst_type ++ ", " ++
          toString i.imm ++ ")"
  | .add => "add(" ++ tOperand i.dst ++ ", " ++ type_tag_name i.dst_type ++ ", " ++
      tOperand i.lhs ++ ", " ++ tOperand i.rhs ++ ")"
  | .sub => "sub(" ++ tOperand i.dst ++ ", " ++ type_tag_name i.dst_type ++ ", " ++
      tOperand i.lhs ++ ", " ++ tOperand i.rhs ++ ")"
  | .mul => "mul(" ++ tOperand i.dst ++ ", " ++ type_tag_name i.dst_type ++ ", " ++
      tOperand i.lhs ++ ", " ++ tOperand i.rhs ++ ")"
  | .div => "div(" ++ tOperand i.dst ++ ", " ++ type_tag_name i.dst_type ++ ", " ++
      tOperand i.lhs ++ ", " ++ tOperand i.rhs ++ ")"
  | .rem => "rem(" ++ tOperand i.dst ++ ", " ++ type_tag_name i.dst_type ++ ", " ++
      tOperand i.lhs ++ ", " ++ tOperand i.rhs ++ ")"
  | .bitand => "bitand(" ++ tOperand i.dst ++ ", " ++ type_tag_name i.dst_type ++ ", " ++
      tOperand i.lhs ++ ", " ++ tOperand i.rhs ++ ")"
  | .bitor => "bitor(" ++ tOperand i.dst ++ ", " ++ type_tag_name i.dst_type ++ ", " ++
      tOperand i.lhs ++ ", " ++ tOperand i.rhs ++ ")"
  | .bitxor => "bitxor(" ++ tOperand i.dst ++ ", " ++ type_tag_name i.dst_type ++ ", " ++
      tOperand i.lhs ++ ", " ++ tOperand i.rhs ++ ")"
  | .lsh => "lsh(" ++ tOperand i.dst ++ ", " ++ type_tag_name i.dst_type ++ ", " ++
      tOperand i.lhs ++ ", " ++ tOperand i.rhs ++ ")"
  | .lrsh => "lrsh(" ++ tOperand i.dst ++ ", " ++ type_tag_name i.dst_type ++ ", " ++
      tOperand i.lhs ++ ", " ++ tOperand i.rhs ++ ")"
  | .arsh => "arsh(" ++ tOperand i.dst ++ ", " ++ type_tag_name i.dst_type ++ ", " ++
      tOperand i.lhs ++ ", " ++ tOperand i.rhs ++ ")"
  | .tor => "or(" ++ tOperand i.dst ++ ", bool, " ++ tOperand i.lhs ++ ", " ++
      tOperand i.rhs ++ ")"
  | .tand => "and(" ++ tOperand i.dst ++ ", bool, " ++ tOperand i.lhs ++ ", " ++
      tOperand i.rhs ++ ")"
  | .tnot => "not(" ++ tOperand i.dst ++ ", bool, " ++ tOperand i.lhs ++ ")"
  | .gez => "gez(" ++ tOperand i.dst ++ ", bool, " ++ tOperand i.lhs ++ ")"
  | .move => "move(" ++ toString i.imm ++ ")"
  | .load => "load(" ++ tOperand i.dst ++ ")"
  | .store => "store(" ++ tOperand i.lhs ++ ")"
  | .print => "print(" ++ tOperand i.lhs ++ ")"
  | .printchar => "printchar(" ++ tOperand i.lhs ++ ")"
  | .deref => "deref(" ++ tOperand i.dst ++ ", " ++ tOperand i.lhs ++ ")"
  | .refer => "refer(" ++ tOperand i.dst ++ ", " ++ tOperand i.lhs ++ ")"
  | .twhere => "where(" ++ tOperand i.dst ++ ")"
  | .toffset => "offset(" ++ tOperand i.dst ++ ", " ++ tOperand i.lhs ++ ", " ++
      toString i.imm ++ ")"
  | .tindex => "index(" ++ tOperand i.dst ++ ", " ++ tOperand i.lhs ++ ", " ++
      tOperand i.rhs ++ ")"
  | .tset => "set(" ++ tOperand i.lhs ++ ", " ++ tOperand i.rhs ++ ")"
  | .jmp => "jmp(" ++ lOperand i.imm ++ ")"
  | .jz => "jz(" ++ tOperand i.lhs ++ ", " ++ lOperand i.imm ++ ")"
  | .call =>
      if 0 ≤ i.dst then "call(" ++ lOperand i.imm ++ ", " ++ tOperand i.dst ++ ")"
      else "call(" ++ lOperand i.imm ++ ")"
  | .ret => "ret"
  | .label => "true"

/-- Clause head `l%d :-\n`. -/
def clauseHead (lbl : Int) : String := "l" ++ toString lbl ++ " :-\n"

mutual

/-- Outer loop of tac_dump_write.  `curr` is `curr_label` (-1 before the first
clause).  Each call performs one iteration of the C `while (i < t->count)`
loop; the fuel dominates the iteration count (every hop either consumes an
instruction or is immediately followed by one that does, so `2*length + 2`
suffices for the entry point). -/
def tac_dump_from (goal : tac_instr → String) :
    Nat → List tac_instr → Int → String
  | 0, _, _ => ""
  | _, [], _ => ""
  | fuel + 1, c :: rest, curr =>
    if c.op = TacOp.label then
      let lbl := c.imm
      let hdr := (if curr ≠ -1 then "\n" else "") ++ clauseHead lbl
      match rest with
      | [] => hdr ++ "  true.\n"
      | c2 :: _ =>
        if c2.op = TacOp.label then
          hdr ++ "  true.\n" ++ tac_dump_from goal fuel rest lbl
        else hdr ++ tac_dump_goals goal fuel rest lbl
    else
      let hdr := if curr ≠ 0 then (if curr ≠ -1 then "\n" else "") ++ clauseHead 0
                 else ""
      hdr ++ tac_dump_goals goal fuel (c :: rest) 0

/-- First-goal emission plus the inner goal loop of tac_dump_write: print the
first goal (closing the clause at once on a Ret), then comma-separated goals
until a Label, a Ret, or the end of the IR. -/
def tac_dump_goals (goal : tac_instr → String) :
    Nat → List tac_instr → Int → String
  | 0, _, _ => ""
  | _, [], _ => ""
  | fuel + 1, c :: rest, curr =>
    "  " ++ goal c ++
      (if c.op = TacOp.ret then ".\n" ++ tac_dump_from goal fuel rest curr
       else tac_dump_more goal fuel rest curr)

/-- Inner `while` loop of tac_dump_write continuing a clause body. -/
def tac_dump_more (goal : tac_instr → String) :
    Nat → List tac_instr → Int → String
  | 0, _, _ => ""
  | _, [], _ => ".\n"
  | fuel + 1, c :: rest, curr =>
    if c.op = TacOp.label then ".\n" ++ tac_dump_from goal fuel (c :: rest) curr
    else
      ",\n  " ++ goal c ++
        (if c.op = TacOp.ret then ".\n" ++ tac_dump_from goal fuel rest curr
         else tac_dump_more goal fuel rest curr)

end

/-- tac_dump_write: the full Horn-clause dump of a TAC program, rendering
goals with tac_print_goal. -/
def tac_dump_write (t : List tac_instr) : String :=
  tac_dump_from tac_print_goal (2 * t.length + 2) t (-1)

/-! Concrete bytecode programs and run-outcome extractors used by the claim
theorems. -/

/-- Final (block_sp, call_sp) of a completed run, `none` on abort or fuel
exhaustion. -/
def finalBlocks (code : List Int) (fuel : Nat) : Option (Nat × Nat) :=
  match run_vm code fuel with
  | .ok (some st) => some (st.blockSp, st.callSp)
  | _ => none

/-- Final (block_sp, sp, top word) of a completed run. -/
def finalTop (code : List Int) (fuel : Nat) : Option (Nat × Nat × Int) :=
  match run_vm code fuel with
  | .ok (some st) => some (st.blockSp, st.sp, st.stack (st.sp - 1))
  | _ => none

/-- Well-formed while-loop program (matched While/EndBlock pair, halting):
`Push(I64,1); Store; cond: Load; While(cond=4); Push(I64,0); Store; EndBlock;
Halt`.  The loop body executes exactly once. -/
def progWhileOnce : List Int := [1, 7, 1, 9, 8, 20, 4, 1, 7, 0, 9, 23, 34]

/-- Program starting with an `Else` while the block stack is empty:
`Else; Push(I64,5); EndBlock; Push(I64,9); Halt`. -/
def progElseNoBlock : List Int := [22, 1, 7, 5, 23, 1, 7, 9, 34]

/-- Program starting with an `EndBlock` while the block stack is empty:
`EndBlock; Push(I64,9); Halt`. -/
def progEndNoBlock : List Int := [23, 1, 7, 9, 34]

/-! Claim theorems. -/

/-- Reduction of an Except bind applied to a success value (do-notation). -/
theorem exc_bind_ok {α β : Type} (a : α) (f : α → Except String β) :
    (Except.ok a >>= f) = f a := rfl

/-- Reduction of an Except bind applied to an error value (do-notation). -/
theorem exc_bind_err {α β : Type} (e : String) (f : α → Except String β) :
    ((Except.error e : Except String α) >>= f) = Except.error e := rfl

/-- Reduction of an Except map applied to a success value. -/
theorem exc_map_ok {α β : Type} (g : α → β) (a : α) :
    (g <$> (Except.ok a : Except String α)) = Except.ok (g a) := rfl

/-- Reduction of an Except map applied to an error value. -/
theorem exc_map_err {α β : Type} (g : α → β) (e : String) :
    (g <$> (Except.error e : Except String α)) = (Except.error e : Except String β) := rfl

/-- Reading an updated slot back. -/
theorem upd_apply_same {ι : Type} [DecidableEq ι] {α : Type} (f : ι → α) (i : ι) (v : α) :
    upd f i v i = v := by simp [upd]

/-- Reading a slot other than the updated one. -/
theorem upd_apply_ne {ι : Type} [DecidableEq ι] {α : Type} (f : ι → α) (i j : ι) (v : α)
    (h : j ≠ i) : upd f i v j = f j := by simp [upd, h]

/-- Claim C6: for every interpreter state in which tape[tp] is a valid tape
index and the pointer stack has room, a matched Deref/Refer pair leaves both
tp and tp_sp unchanged (Deref saves tp on the pointer stack and chases it,
Refer pops it back). -/
theorem deref_refer_restores_tp (st : VMState)
    (hroom : st.tpSp < TAPE_SIZE)
    (hnn : 0 ≤ st.tape st.tp) (hlt : (st.tape st.tp).toNat < TAPE_SIZE) :
    ∃ st1 st2, interp_deref st = .ok st1 ∧ interp_refer st1 = .ok st2 ∧
      st2.tp = st.tp ∧ st2.tpSp = st.tpSp := by
  have h1 : interp_deref st =
      .ok { st with tpStack := upd st.tpStack st.tpSp st.tp, tpSp := st.tpSp + 1,
                    tp := (st.tape st.tp).toNat } := by
    simp [interp_deref, vm_push_tp, hroom, hnn, hlt, exc_bind_ok]
  have h2 : interp_refer
        { st with tpStack := upd st.tpStack st.tpSp st.tp, tpSp := st.tpSp + 1,
                  tp := (st.tape st.tp).toNat } =
      .ok { st with tpStack := upd st.tpStack st.tpSp st.tp, tpSp := st.tpSp,
                    tp := st.tp } := by
    simp [interp_refer, vm_pop_tp, upd, exc_bind_ok]
  exact ⟨_, _, h1, h2, rfl, rfl⟩

/-- Witness for deref_refer_restores_tp at the zero-initialised state. -/
theorem deref_refer_restores_tp_witness :
    (initVM []).tpSp < TAPE_SIZE ∧ 0 ≤ (initVM []).tape (initVM []).tp ∧
      ((initVM []).tape (initVM []).tp).toNat < TAPE_SIZE ∧
      ∃ st1 st2, interp_deref (initVM []) = .ok st1 ∧ interp_refer st1 = .ok st2 ∧
        st2.tp = (initVM []).tp ∧ st2.tpSp = (initVM []).tpSp :=
  ⟨by decide, by decide, by decide,
   deref_refer_restores_tp (initVM []) (by decide) (by decide) (by decide)⟩

/-- Claim C10 (implicit): interp_where and the return-value push of
interp_return write only the data word: the whole parallel type-tag array is
left unchanged, so the tag observed at the new top of stack is whatever tag
previously occupied that slot (TYPE_UNKNOWN in a fresh run, since run_vm
initialises every tag to TYPE_UNKNOWN). -/
theorem where_return_leave_tags (st : VMState) :
    (st.sp < STACK_SIZE →
      ∃ st2, interp_where st = .ok st2 ∧ st2.types = st.types ∧
        st2.sp = st.sp + 1 ∧ st2.stack st.sp = Int.ofNat st.tp ∧
        st2.types st.sp = st.types st.sp) ∧
    (0 < st.callSp → st.fp < STACK_SIZE →
      ∃ st2, interp_return st = .ok st2 ∧ st2.types = st.types ∧
        st2.sp = st.fp + 1 ∧ st2.types st.fp = st.types st.fp) ∧
    (∀ (code : List Int) (j : Nat), (initVM code).types j = TypeTag.unknown) := by
  refine ⟨?_, ?_, fun _ _ => rfl⟩
  · intro h
    refine ⟨{ st with stack := upd st.stack st.sp (Int.ofNat st.tp), sp := st.sp + 1 },
      ?_, rfl, rfl, ?_, rfl⟩
    · simp [interp_where, vm_push, h]
    · simp [upd]
  · intro hcs hfp
    by_cases hpop : st.fp < st.sp
    · have hsp : 0 < st.sp := Nat.lt_of_le_of_lt (Nat.zero_le st.fp) hpop
      refine ⟨{ st with stack := upd st.stack st.fp (st.stack (st.sp - 1)),
                        sp := st.fp + 1,
                        callSp := st.callSp - 1,
                        fp := (st.callStack (st.callSp - 1)).2,
                        ip := (st.callStack (st.callSp - 1)).1 }, ?_, rfl, rfl, rfl⟩
      simp [interp_return, vm_pop, vm_push, hcs, hfp, hpop, hsp, exc_bind_ok]
    · refine ⟨{ st with stack := upd st.stack st.fp 0,
                        sp := st.fp + 1,
                        callSp := st.callSp - 1,
                        fp := (st.callStack (st.callSp - 1)).2,
                        ip := (st.callStack (st.callSp - 1)).1 }, ?_, rfl, rfl, rfl⟩
      simp [interp_return, vm_pop, vm_push, hcs, hfp, hpop, exc_bind_ok]

/-- Witness for where_return_leave_tags at a state with one open call frame. -/
theorem where_return_leave_tags_witness :
    ((initVM []).sp < STACK_SIZE →
      ∃ st2, interp_where (initVM []) = .ok st2 ∧ st2.types = (initVM []).types ∧
        st2.sp = (initVM []).sp + 1 ∧ st2.stack (initVM []).sp = Int.ofNat (initVM []).tp ∧
        st2.types (initVM []).sp = (initVM []).types (initVM []).sp) ∧
    ((initVM []).sp < STACK_SIZE) ∧
    (0 < { initVM [] with callSp := 1 }.callSp →
      { initVM [] with callSp := 1 }.fp < STACK_SIZE →
      ∃ st2, interp_return { initVM [] with callSp := 1 } = .ok st2 ∧
        st2.types = { initVM [] with callSp := 1 }.types ∧
        st2.sp = { initVM [] with callSp := 1 }.fp + 1 ∧
        st2.types { initVM [] with callSp := 1 }.fp =
          { initVM [] with callSp := 1 }.types { initVM [] with callSp := 1 }.fp) :=
  ⟨(where_return_leave_tags (initVM [])).1, by decide,
   (where_return_leave_tags { initVM [] with callSp := 1 }).2.1⟩

/-- Claim C3 (corrected): in the interpreter, Else or EndBlock with an empty
block stack is NOT fatal.  EndBlock is a no-op (the state is returned
unchanged), and Else scans forward and continues with block_sp still 0;
execution proceeds normally in both cases.  (The TAC backend, by contrast,
asserts in this situation.) -/
theorem else_endblock_no_block_tolerated (st : VMState) (h : st.blockSp = 0) :
    interp_endblock st = .ok st ∧
    ∃ st2, interp_else st = .ok st2 ∧ st2.blockSp = 0 ∧ st2.sp = st.sp ∧
      st2.stack = st.stack ∧ st2.types = st.types := by
  constructor
  · simp [interp_endblock, h]
  · cases hscan : scan_else st.code st.code.length (st.code.length + 1) st.ip 0 with
    | none =>
        refine ⟨{ st with ip := st.code.length }, ?_, h, rfl, rfl, rfl⟩
        simp [interp_else, hscan]
    | some j =>
        refine ⟨{ st with ip := j }, ?_, h, rfl, rfl, rfl⟩
        simp [interp_else, hscan, h]

/-- Witness for else_endblock_no_block_tolerated at the zero-initialised
state. -/
theorem else_endblock_no_block_tolerated_witness :
    (initVM progElseNoBlock).blockSp = 0 ∧
    (interp_endblock (initVM progElseNoBlock) = .ok (initVM progElseNoBlock) ∧
      ∃ st2, interp_else (initVM progElseNoBlock) = .ok st2 ∧ st2.blockSp = 0 ∧
        st2.sp = (initVM progElseNoBlock).sp ∧
        st2.stack = (initVM progElseNoBlock).stack ∧
        st2.types = (initVM progElseNoBlock).types) :=
  ⟨rfl, else_endblock_no_block_tolerated (initVM progElseNoBlock) rfl⟩

/-- Counterexample to claim C3 as stated: two complete interpreter runs, one
executing Else and one executing EndBlock with block_sp == 0 (the very first
opcode of each program), both of which run to Halt normally — final state with
block_sp = 0, one stack entry, top word 9 — instead of aborting. -/
theorem else_endblock_no_block_counterexample :
    finalTop progElseNoBlock 30 = some (0, 1, 9) ∧
    finalTop progEndNoBlock 30 = some (0, 1, 9) := by
  constructor <;> rfl

/-- Claim C1 is violated by the code: running the well-formed single-iteration
while-loop program progWhileOnce (its While/EndBlock pair is properly matched
and it ends at Halt) finishes with block_sp = 1, not 0 (call_sp is 0).  The
interpreter pushes a fresh While marker on every iteration entry and never
pops it: EndBlock jumps back leaving the marker, and the final false condition
skips out of the loop without popping, so block_sp counts the executed
iterations. -/
theorem while_leaves_block_marker :
    finalBlocks progWhileOnce 60 = some (1, 0) := by
  rfl

/-- Claim C5: with a non-empty call stack, Return pops the top of stack as the
return value when sp > fp (0 otherwise), tears locals down to fp, restores
(ip, fp) from the call stack and pushes the return value; consequently a
Call followed by pushing one value v and Return leaves the caller with v on
top, fp restored and sp = caller sp + 1. -/
theorem return_restores_frame (st : VMState) :
    (∀ (h1 : 0 < st.callSp) (h2 : st.fp < STACK_SIZE),
      ∃ st2, interp_return st = .ok st2 ∧
        st2.sp = st.fp + 1 ∧
        st2.stack st.fp = (if st.fp < st.sp then st.stack (st.sp - 1) else 0) ∧
        st2.ip = (st.callStack (st.callSp - 1)).1 ∧
        st2.fp = (st.callStack (st.callSp - 1)).2 ∧
        st2.callSp = st.callSp - 1) ∧
    (∀ (v fidx : Int) (h3 : st.callSp < CALL_STACK_SIZE) (h4 : 0 ≤ fidx)
        (h5 : fidx.toNat < st.functionsCount) (h6 : st.sp < STACK_SIZE),
      ∃ st3, (interp_call st fidx >>= fun s1 =>
                vm_push s1 v >>= fun s2 => interp_return s2) = .ok st3 ∧
        st3.stack st.sp = v ∧ st3.sp = st.sp + 1 ∧ st3.fp = st.fp ∧ st3.ip = st.ip) := by
  constructor
  · intro h1 h2
    by_cases hpop : st.fp < st.sp
    · have hsp : 0 < st.sp := Nat.lt_of_le_of_lt (Nat.zero_le st.fp) hpop
      refine ⟨{ st with stack := upd st.stack st.fp (st.stack (st.sp - 1)),
                        sp := st.fp + 1,
                        callSp := st.callSp - 1,
                        fp := (st.callStack (st.callSp - 1)).2,
                        ip := (st.callStack (st.callSp - 1)).1 },
        ?_, rfl, ?_, rfl, rfl, rfl⟩
      · simp [interp_return, vm_pop, vm_push, h1, h2, hpop, hsp, exc_bind_ok]
      · simp [upd_apply_same, hpop]
    · refine ⟨{ st with stack := upd st.stack st.fp 0,
                        sp := st.fp + 1,
                        callSp := st.callSp - 1,
                        fp := (st.callStack (st.callSp - 1)).2,
                        ip := (st.callStack (st.callSp - 1)).1 },
        ?_, rfl, ?_, rfl, rfl, rfl⟩
      · simp [interp_return, vm_pop, vm_push, h1, h2, hpop, exc_bind_ok]
      · simp [upd_apply_same, hpop]
  · intro v fidx h3 h4 h5 h6
    have e1 : interp_call st fidx =
        .ok { st with callStack := upd st.callStack st.callSp (st.ip, st.fp),
                      callSp := st.callSp + 1,
                      fp := st.sp,
                      ip := st.functions fidx.toNat } := by
      simp [interp_call, h3, h4, h5]
    have e2 : vm_push { st with callStack := upd st.callStack st.callSp (st.ip, st.fp),
                                callSp := st.callSp + 1,
                                fp := st.sp,
                                ip := st.functions fidx.toNat } v =
        .ok { st with stack := upd st.stack st.sp v,
                      sp := st.sp + 1,
                      callStack := upd st.callStack st.callSp (st.ip, st.fp),
                      callSp := st.callSp + 1,
                      fp := st.sp,
                      ip := st.functions fidx.toNat } := by
      simp [vm_push, h6]
    have e3 : interp_return
        { st with stack := upd st.stack st.sp v,
                  sp := st.sp + 1,
                  callStack := upd st.callStack st.callSp (st.ip, st.fp),
                  callSp := st.callSp + 1,
                  fp := st.sp,
                  ip := st.functions fidx.toNat } =
        .ok { st with stack := upd (upd st.stack st.sp v) st.sp v,
                      sp := st.sp + 1,
                      callStack := upd st.callStack st.callSp (st.ip, st.fp),
                      callSp := st.callSp,
                      fp := st.fp,
                      ip := st.ip } := by
      simp [interp_return, vm_pop, vm_push, h6, exc_bind_ok, upd_apply_same]
    refine ⟨{ st with stack := upd (upd st.stack st.sp v) st.sp v,
                      sp := st.sp + 1,
                      callStack := upd st.callStack st.callSp (st.ip, st.fp),
                      callSp := st.callSp,
                      fp := st.fp,
                      ip := st.ip }, ?_, ?_, rfl, rfl, rfl⟩
    · rw [e1, exc_bind_ok, e2, exc_bind_ok, e3]
    · simp [upd_apply_same]

/-- The eleven arithmetic/bitwise/shift opcodes of claim C4. -/
def binOps : List OpCode :=
  [.add, .sub, .mul, .div, .rem, .bitand, .bitor, .bitxor, .lsh, .lrsh, .arsh]

/-- The interpreter hook wired to each binary opcode in the __INTERPRETER
backend record. -/
def binHook : OpCode → VMState → Except String VMState
  | .add, st => interp_add st
  | .sub, st => interp_sub st
  | .mul, st => interp_mul st
  | .div, st => interp_div st
  | .rem, st => interp_rem st
  | .bitand, st => interp_bitand st
  | .bitor, st => interp_bitor st
  | .bitxor, st => interp_bitxor st
  | .lsh, st => interp_lsh st
  | .lrsh, st => interp_lrsh st
  | .arsh, st => interp_arsh st
  | _, _ => .error "not a binary opcode"

/-- The pure value each binary opcode computes on (second-from-top, top),
in the non-aborting cases. -/
def binDenote : OpCode → Int → Int → Int
  | .add, b, a => wrap64 (b + a)
  | .sub, b, a => wrap64 (b - a)
  | .mul, b, a => wrap64 (b * a)
  | .div, b, a => wrap64 (Int.tdiv b a)
  | .rem, b, a => Int.tmod b a
  | .bitand, b, a => Int.land b a
  | .bitor, b, a => Int.lor b a
  | .bitxor, b, a => Int.xor b a
  | .lsh, b, a => wrap64 (b * 2 ^ a.toNat)
  | .lrsh, b, a => wrap64 ((b % 2 ^ 64) / 2 ^ a.toNat)
  | .arsh, b, a => Int.fdiv b (2 ^ a.toNat)
  | _, _, _ => 0

/-- interp_binary on a state with two equally-tagged operands and a scalar
function that succeeds on them: both operands are popped, the result is pushed
with the common tag. -/
theorem interp_binary_ok (st : VMState) (fn : Int → Int → Except String Int) (r : Int)
    (hsp : 2 ≤ st.sp) (hcap : st.sp ≤ STACK_SIZE)
    (ht : st.types (st.sp - 1) = st.types (st.sp - 2))
    (hfn : fn (st.stack (st.sp - 2)) (st.stack (st.sp - 1)) = .ok r) :
    interp_binary st fn =
      .ok { st with stack := upd st.stack (st.sp - 2) r,
                    sp := st.sp - 2 + 1,
                    types := upd st.types (st.sp - 2) (st.types (st.sp - 1)) } := by
  have h1 : 0 < st.sp := by omega
  have h2 : 0 < st.sp - 1 := by omega
  have h3 : st.sp - 1 - 1 = st.sp - 2 := by omega
  have h4 : st.sp - 2 < STACK_SIZE := by
    have : STACK_SIZE = 1024 := rfl
    omega
  simp [interp_binary, vm_pop, vm_push, hsp, ht, h1, h2, h3, h4, hfn, exc_bind_ok,
    upd_apply_same]

/-- interp_binary aborts on a type mismatch between the two operands. -/
theorem interp_binary_mismatch (st : VMState) (fn : Int → Int → Except String Int)
    (hsp : 2 ≤ st.sp) (ht : st.types (st.sp - 1) ≠ st.types (st.sp - 2)) :
    interp_binary st fn = .error "interp_binary: type mismatch" := by
  simp [interp_binary, hsp, ht]

/-- interp_binary propagates an abort of the scalar function (division or
modulo by zero). -/
theorem interp_binary_fn_err (st : VMState) (fn : Int → Int → Except String Int)
    (e : String) (hsp : 2 ≤ st.sp)
    (ht : st.types (st.sp - 1) = st.types (st.sp - 2))
    (hfn : fn (st.stack (st.sp - 2)) (st.stack (st.sp - 1)) = .error e) :
    interp_binary st fn = .error e := by
  have h1 : 0 < st.sp := by omega
  have h2 : 0 < st.sp - 1 := by omega
  have h3 : st.sp - 1 - 1 = st.sp - 2 := by omega
  simp [interp_binary, vm_pop, hsp, ht, h1, h2, h3, hfn, exc_bind_ok, exc_bind_err]

/-- Claim C4: each of the eleven binary arithmetic/bitwise/shift ops, on a
state with sp >= 2 and equal tags on the two top entries, pops both operands
and pushes op(second-from-top, top) with the common tag, decreasing sp by
exactly one; differing tags abort, and Div/Rem with a zero top operand
abort. -/
theorem binary_ops_semantics (st : VMState) (op : OpCode) (hop : op ∈ binOps)
    (hsp : 2 ≤ st.sp) (hcap : st.sp ≤ STACK_SIZE) :
    (st.types (st.sp - 1) = st.types (st.sp - 2) →
      ((op = .div ∨ op = .rem) → st.stack (st.sp - 1) ≠ 0) →
      ∃ st2, binHook op st = .ok st2 ∧
        st2.sp = st.sp - 1 ∧
        st2.stack (st.sp - 2) =
          binDenote op (st.stack (st.sp - 2)) (st.stack (st.sp - 1)) ∧
        st2.types (st.sp - 2) = st.types (st.sp - 1) ∧
        (∀ j, j ≠ st.sp - 2 → st2.stack j = st.stack j) ∧
        (∀ j, j ≠ st.sp - 2 → st2.types j = st.types j)) ∧
    (st.types (st.sp - 1) ≠ st.types (st.sp - 2) →
      binHook op st = .error "interp_binary: type mismatch") ∧
    ((op = .div ∨ op = .rem) → st.types (st.sp - 1) = st.types (st.sp - 2) →
      st.stack (st.sp - 1) = 0 → ∃ e, binHook op st = .error e) := by
  have hone : st.sp - 2 + 1 = st.sp - 1 := by omega
  have mk : ∀ (fn : Int → Int → Except String Int),
      (fn (st.stack (st.sp - 2)) (st.stack (st.sp - 1)) =
        .ok (binDenote op (st.stack (st.sp - 2)) (st.stack (st.sp - 1)))) →
      st.types (st.sp - 1) = st.types (st.sp - 2) →
      interp_binary st fn =
        .ok { st with stack := upd st.stack (st.sp - 2)
                        (binDenote op (st.stack (st.sp - 2)) (st.stack (st.sp - 1))),
                      sp := st.sp - 2 + 1,
                      types := upd st.types (st.sp - 2) (st.types (st.sp - 1)) } :=
    fun fn hfn ht => interp_binary_ok st fn _ hsp hcap ht hfn
  fin_cases hop
  case _ =>
    exact ⟨fun ht _ => ⟨_, mk add_fn rfl ht, hone, upd_apply_same _ _ _, upd_apply_same _ _ _,
        fun j hj => upd_apply_ne _ _ _ _ hj, fun j hj => upd_apply_ne _ _ _ _ hj⟩,
      fun ht => interp_binary_mismatch st _ hsp ht,
      fun hdr => absurd hdr (by simp)⟩
  case _ =>
    exact ⟨fun ht _ => ⟨_, mk sub_fn rfl ht, hone, upd_apply_same _ _ _, upd_apply_same _ _ _,
        fun j hj => upd_apply_ne _ _ _ _ hj, fun j hj => upd_apply_ne _ _ _ _ hj⟩,
      fun ht => interp_binary_mismatch st _ hsp ht,
      fun hdr => absurd hdr (by simp)⟩
  case _ =>
    exact ⟨fun ht _ => ⟨_, mk mul_fn rfl ht, hone, upd_apply_same _ _ _, upd_apply_same _ _ _,
        fun j hj => upd_apply_ne _ _ _ _ hj, fun j hj => upd_apply_ne _ _ _ _ hj⟩,
      fun ht => interp_binary_mismatch st _ hsp ht,
      fun hdr => absurd hdr (by simp)⟩
  case _ =>
    refine ⟨fun ht hnz => ?_, fun ht => interp_binary_mismatch st _ hsp ht,
      fun _ ht hz => ⟨"Division by zero", interp_binary_fn_err st _ _ hsp ht ?_⟩⟩
    · have hnz2 : st.stack (st.sp - 1) ≠ 0 := hnz (Or.inl rfl)
      exact ⟨_, mk div_fn (by simp [div_fn, binDenote, hnz2]) ht, hone, upd_apply_same _ _ _, upd_apply_same _ _ _,
        fun j hj => upd_apply_ne _ _ _ _ hj, fun j hj => upd_apply_ne _ _ _ _ hj⟩
    · simp [div_fn, hz]
  case _ =>
    refine ⟨fun ht hnz => ?_, fun ht => interp_binary_mismatch st _ hsp ht,
      fun _ ht hz => ⟨"Modulo by zero", interp_binary_fn_err st _ _ hsp ht ?_⟩⟩
    · have hnz2 : st.stack (st.sp - 1) ≠ 0 := hnz (Or.inr rfl)
      exact ⟨_, mk rem_impl (by simp [rem_impl, binDenote, hnz2]) ht, hone, upd_apply_same _ _ _, upd_apply_same _ _ _,
        fun j hj => upd_apply_ne _ _ _ _ hj, fun j hj => upd_apply_ne _ _ _ _ hj⟩
    · simp [rem_impl, hz]
  case _ =>
    exact ⟨fun ht _ => ⟨_, mk bitand_impl rfl ht, hone, upd_apply_same _ _ _, upd_apply_same _ _ _,
        fun j hj => upd_apply_ne _ _ _ _ hj, fun j hj => upd_apply_ne _ _ _ _ hj⟩,
      fun ht => interp_binary_mismatch st _ hsp ht,
      fun hdr => absurd hdr (by simp)⟩
  case _ =>
    exact ⟨fun ht _ => ⟨_, mk bitor_impl rfl ht, hone, upd_apply_same _ _ _, upd_apply_same _ _ _,
        fun j hj => upd_apply_ne _ _ _ _ hj, fun j hj => upd_apply_ne _ _ _ _ hj⟩,
      fun ht => interp_binary_mismatch st _ hsp ht,
      fun hdr => absurd hdr (by simp)⟩
  case _ =>
    exact ⟨fun ht _ => ⟨_, mk bitxor_impl rfl ht, hone, upd_apply_same _ _ _, upd_apply_same _ _ _,
        fun j hj => upd_apply_ne _ _ _ _ hj, fun j hj => upd_apply_ne _ _ _ _ hj⟩,
      fun ht => interp_binary_mismatch st _ hsp ht,
      fun hdr => absurd hdr (by simp)⟩
  case _ =>
    exact ⟨fun ht _ => ⟨_, mk lsh_impl rfl ht, hone, upd_apply_same _ _ _, upd_apply_same _ _ _,
        fun j hj => upd_apply_ne _ _ _ _ hj, fun j hj => upd_apply_ne _ _ _ _ hj⟩,
      fun ht => interp_binary_mismatch st _ hsp ht,
      fun hdr => absurd hdr (by simp)⟩
  case _ =>
    exact ⟨fun ht _ => ⟨_, mk lrsh_impl rfl ht, hone, upd_apply_same _ _ _, upd_apply_same _ _ _,
        fun j hj => upd_apply_ne _ _ _ _ hj, fun j hj => upd_apply_ne _ _ _ _ hj⟩,
      fun ht => interp_binary_mismatch st _ hsp ht,
      fun hdr => absurd hdr (by simp)⟩
  case _ =>
    exact ⟨fun ht _ => ⟨_, mk arsh_impl rfl ht, hone, upd_apply_same _ _ _, upd_apply_same _ _ _,
        fun j hj => upd_apply_ne _ _ _ _ hj, fun j hj => upd_apply_ne _ _ _ _ hj⟩,
      fun ht => interp_binary_mismatch st _ hsp ht,
      fun hdr => absurd hdr (by simp)⟩

/-- Concrete two-operand state for exercising the binary-op theorem: stack
holds 10 (deeper) and 3 (top), both tagged I64. -/
def binState : VMState :=
  { initVM [] with sp := 2,
                   stack := upd (upd (fun _ => 0) 0 10) 1 3,
                   types := fun _ => TypeTag.i64 }

/-- Witness for binary_ops_semantics: Sub on the concrete state binState. -/
theorem binary_ops_semantics_witness :
    (OpCode.sub ∈ binOps ∧ 2 ≤ binState.sp ∧ binState.sp ≤ STACK_SIZE) ∧
    ((binState.types (binState.sp - 1) = binState.types (binState.sp - 2) →
      ((OpCode.sub = .div ∨ OpCode.sub = .rem) → binState.stack (binState.sp - 1) ≠ 0) →
      ∃ st2, binHook OpCode.sub binState = .ok st2 ∧
        st2.sp = binState.sp - 1 ∧
        st2.stack (binState.sp - 2) =
          binDenote OpCode.sub (binState.stack (binState.sp - 2))
            (binState.stack (binState.sp - 1)) ∧
        st2.types (binState.sp - 2) = binState.types (binState.sp - 1) ∧
        (∀ j, j ≠ binState.sp - 2 → st2.stack j = binState.stack j) ∧
        (∀ j, j ≠ binState.sp - 2 → st2.types j = binState.types j)) ∧
    (binState.types (binState.sp - 1) ≠ binState.types (binState.sp - 2) →
      binHook OpCode.sub binState = .error "interp_binary: type mismatch") ∧
    ((OpCode.sub = .div ∨ OpCode.sub = .rem) →
      binState.types (binState.sp - 1) = binState.types (binState.sp - 2) →
      binState.stack (binState.sp - 1) = 0 →
      ∃ e, binHook OpCode.sub binState = .error e)) :=
  ⟨⟨by decide, by decide, by decide⟩,
   binary_ops_semantics binState OpCode.sub (by decide) (by decide) (by decide)⟩

/-- Witness for return_restores_frame: a state with one recorded function and
an open call frame. -/
theorem return_restores_frame_witness :
    (0 < { initVM [] with callSp := 1 }.callSp ∧
      { initVM [] with callSp := 1 }.fp < STACK_SIZE ∧
      ∃ st2, interp_return { initVM [] with callSp := 1 } = .ok st2 ∧
        st2.sp = { initVM [] with callSp := 1 }.fp + 1 ∧
        st2.stack { initVM [] with callSp := 1 }.fp =
          (if { initVM [] with callSp := 1 }.fp < { initVM [] with callSp := 1 }.sp
           then { initVM [] with callSp := 1 }.stack ({ initVM [] with callSp := 1 }.sp - 1)
           else 0) ∧
        st2.ip = ({ initVM [] with callSp := 1 }.callStack
          ({ initVM [] with callSp := 1 }.callSp - 1)).1 ∧
        st2.fp = ({ initVM [] with callSp := 1 }.callStack
          ({ initVM [] with callSp := 1 }.callSp - 1)).2 ∧
        st2.callSp = { initVM [] with callSp := 1 }.callSp - 1) ∧
    ∃ st3, (interp_call { initVM [] with functionsCount := 1 } 0 >>= fun s1 =>
              vm_push s1 7 >>= fun s2 => interp_return s2) = .ok st3 ∧
      st3.stack { initVM [] with functionsCount := 1 }.sp = 7 ∧
      st3.sp = { initVM [] with functionsCount := 1 }.sp + 1 ∧
      st3.fp = { initVM [] with functionsCount := 1 }.fp ∧
      st3.ip = { initVM [] with functionsCount := 1 }.ip :=
  ⟨⟨by decide, by decide,
    (return_restores_frame { initVM [] with callSp := 1 }).1 (by decide) (by decide)⟩,
   (return_restores_frame { initVM [] with functionsCount := 1 }).2 7 0
     (by decide) (by decide) (by decide) (by decide)⟩

/-- Claim C2: when tac_insert_label_at_idx inserts Label(label) at index
`idx` (as tac_while does at insert_idx = ip_to_tac_index[cond_vm_ip] with the
fresh cond_label): (a) every VM ip whose ip_to_tac_index entry equals idx gets
its ip_to_tac_label entry set to label during the pre-shift scan; (b) the
subsequent shift increments exactly the (non-negative) index entries that were
>= idx, leaves entries below idx unchanged, and leaves the whole
ip_to_tac_label map exactly as the pre-shift scan produced it. -/
theorem insert_label_fixes_maps (s : tac_backend_state) (idx : Nat) (label : Int)
    (hlen : s.vm_ip_to_tac_index.length = s.vm_ip_to_tac_label.length) :
    (∀ (i : Nat) (v : Int), s.vm_ip_to_tac_index[i]? = some v → v = (idx : Int) →
      (tac_insert_label_at_idx s idx label).vm_ip_to_tac_label[i]? = some label) ∧
    (∀ (i : Nat) (v : Int), s.vm_ip_to_tac_index[i]? = some v →
      ((0 ≤ v ∧ (idx : Int) ≤ v →
          (tac_insert_label_at_idx s idx label).vm_ip_to_tac_index[i]? = some (v + 1)) ∧
       (v < (idx : Int) →
          (tac_insert_label_at_idx s idx label).vm_ip_to_tac_index[i]? = some v))) ∧
    (tac_insert_label_at_idx s idx label).vm_ip_to_tac_label =
      List.zipWith (fun v l => if v = (idx : Int) then label else l)
        s.vm_ip_to_tac_index s.vm_ip_to_tac_label := by
  refine ⟨?_, ?_, rfl⟩
  · intro i v hv hvidx
    have hi : i < s.vm_ip_to_tac_index.length := by
      by_contra hge
      rw [List.getElem?_eq_none (Nat.le_of_not_lt hge)] at hv
      exact Option.noConfusion hv
    have hi2 : i < s.vm_ip_to_tac_label.length := hlen ▸ hi
    show (List.zipWith (fun v l => if v = (idx : Int) then label else l)
        s.vm_ip_to_tac_index s.vm_ip_to_tac_label)[i]? = some label
    rw [List.getElem?_zipWith', hv, List.getElem?_eq_getElem hi2]
    simp [hvidx]
  · intro i v hv
    constructor
    · intro ⟨h0, hge⟩
      show ((s.vm_ip_to_tac_index.map
          (fun w => if 0 ≤ w ∧ (idx : Int) ≤ w then w + 1 else w)))[i]? = some (v + 1)
      rw [List.getElem?_map, hv]
      simp [h0, hge]
    · intro hlt
      show ((s.vm_ip_to_tac_index.map
          (fun w => if 0 ≤ w ∧ (idx : Int) ≤ w then w + 1 else w)))[i]? = some v
      rw [List.getElem?_map, hv]
      have : ¬ ((idx : Int) ≤ v) := not_le.mpr hlt
      simp [this]

/-- Concrete TAC builder state for exercising the insertion theorem: two
recorded opcode ips (mapping to IR indices 0 and 1) and one unmapped ip. -/
def c2State : tac_backend_state :=
  { prog := [tacConstInstr 0 1 .i64, tacConstInstr 1 2 .i64]
    stack := [1]
    next_temp := 2
    tp := 0
    label_counter := 1
    block_stack := []
    func_label := fun _ => -1
    vm_ip_to_tac_index := [0, 1, -1]
    vm_ip_to_tac_label := [-1, -1, -1]
    temp_types := fun _ => .unknown }

/-- Witness for insert_label_fixes_maps at c2State, inserting label 5 at
index 1. -/
theorem insert_label_fixes_maps_witness :
    (c2State.vm_ip_to_tac_index.length = c2State.vm_ip_to_tac_label.length) ∧
    ((∀ (i : Nat) (v : Int), c2State.vm_ip_to_tac_index[i]? = some v → v = ((1 : Nat) : Int) →
      (tac_insert_label_at_idx c2State 1 5).vm_ip_to_tac_label[i]? = some 5) ∧
    (∀ (i : Nat) (v : Int), c2State.vm_ip_to_tac_index[i]? = some v →
      ((0 ≤ v ∧ ((1 : Nat) : Int) ≤ v →
          (tac_insert_label_at_idx c2State 1 5).vm_ip_to_tac_index[i]? = some (v + 1)) ∧
       (v < ((1 : Nat) : Int) →
          (tac_insert_label_at_idx c2State 1 5).vm_ip_to_tac_index[i]? = some v))) ∧
    (tac_insert_label_at_idx c2State 1 5).vm_ip_to_tac_label =
      List.zipWith (fun v l => if v = ((1 : Nat) : Int) then (5 : Int) else l)
        c2State.vm_ip_to_tac_index c2State.vm_ip_to_tac_label) :=
  ⟨rfl, insert_label_fixes_maps c2State 1 5 rfl⟩

/-- Claim C7: tac_set allocates temp vt with type t and emits Const(vt,v,t);
it peeks (does not pop) the operand-stack top as the Set pointer operand, and
only when the stack is empty does it allocate a Ptr-typed temp, emit Where for
it and push it; it finally emits Set(lhs=ptr, rhs=vt).  Hence the stack is
unchanged (same top) when it was non-empty, and has exactly the one
materialised pointer temp when it was empty. -/
theorem tac_set_peeks_pointer (s : tac_backend_state) (ip : Nat) (t : TypeTag) (v : Int) :
    (∀ p rest, s.stack = p :: rest →
      (tac_set s ip t v).stack = p :: rest ∧
      (tac_set s ip t v).prog =
        s.prog ++ [tacConstInstr s.next_temp v t, tacSetInstr p s.next_temp] ∧
      (tac_set s ip t v).next_temp = s.next_temp + 1 ∧
      (tac_set s ip t v).temp_types s.next_temp = t) ∧
    (s.stack = [] →
      (tac_set s ip t v).stack = [s.next_temp + 1] ∧
      (tac_set s ip t v).prog =
        s.prog ++ [tacConstInstr s.next_temp v t,
                   tacWhereInstr (s.next_temp + 1) .ptr,
                   tacSetInstr (s.next_temp + 1) s.next_temp] ∧
      (tac_set s ip t v).next_temp = s.next_temp + 2 ∧
      (tac_set s ip t v).temp_types s.next_temp = t ∧
      (tac_set s ip t v).temp_types (s.next_temp + 1) = TypeTag.ptr) := by
  have hrec_stack : (tac_record_vm_ip s ip).stack = s.stack := by
    by_cases h : ip < s.vm_ip_to_tac_index.length <;> simp [tac_record_vm_ip, h]
  have hrec_prog : (tac_record_vm_ip s ip).prog = s.prog := by
    by_cases h : ip < s.vm_ip_to_tac_index.length <;> simp [tac_record_vm_ip, h]
  have hrec_nt : (tac_record_vm_ip s ip).next_temp = s.next_temp := by
    by_cases h : ip < s.vm_ip_to_tac_index.length <;> simp [tac_record_vm_ip, h]
  have hrec_tt : (tac_record_vm_ip s ip).temp_types = s.temp_types := by
    by_cases h : ip < s.vm_ip_to_tac_index.length <;> simp [tac_record_vm_ip, h]
  have hne : s.next_temp ≠ s.next_temp + 1 := by omega
  constructor
  · intro p rest hstack
    refine ⟨?_, ?_, ?_, ?_⟩ <;>
      simp [tac_set, hrec_stack, hrec_prog, hrec_nt, hrec_tt, hstack, upd, hne]
  · intro hstack
    refine ⟨?_, ?_, ?_, ?_, ?_⟩ <;>
      simp [tac_set, hrec_stack, hrec_prog, hrec_nt, hrec_tt, hstack, upd, hne] <;>
      omega

/-- Witness for tac_set_peeks_pointer: both the peek path (at c2State, whose
stack holds temp 1) and the materialise path (at c2State with an emptied
stack). -/
theorem tac_set_peeks_pointer_witness :
    (c2State.stack = 1 :: [] →
      (tac_set c2State 0 TypeTag.i64 9).stack = 1 :: [] ∧
      (tac_set c2State 0 TypeTag.i64 9).prog =
        c2State.prog ++ [tacConstInstr c2State.next_temp 9 TypeTag.i64,
                         tacSetInstr 1 c2State.next_temp] ∧
      (tac_set c2State 0 TypeTag.i64 9).next_temp = c2State.next_temp + 1 ∧
      (tac_set c2State 0 TypeTag.i64 9).temp_types c2State.next_temp = TypeTag.i64) ∧
    ({ c2State with stack := [] }.stack = [] →
      (tac_set { c2State with stack := [] } 0 TypeTag.i64 9).stack =
        [{ c2State with stack := [] }.next_temp + 1] ∧
      (tac_set { c2State with stack := [] } 0 TypeTag.i64 9).prog =
        { c2State with stack := [] }.prog ++
          [tacConstInstr { c2State with stack := [] }.next_temp 9 TypeTag.i64,
           tacWhereInstr ({ c2State with stack := [] }.next_temp + 1) .ptr,
           tacSetInstr ({ c2State with stack := [] }.next_temp + 1)
             { c2State with stack := [] }.next_temp] ∧
      (tac_set { c2State with stack := [] } 0 TypeTag.i64 9).next_temp =
        { c2State with stack := [] }.next_temp + 2 ∧
      (tac_set { c2State with stack := [] } 0 TypeTag.i64 9).temp_types
        { c2State with stack := [] }.next_temp = TypeTag.i64 ∧
      (tac_set { c2State with stack := [] } 0 TypeTag.i64 9).temp_types
        ({ c2State with stack := [] }.next_temp + 1) = TypeTag.ptr) :=
  ⟨(tac_set_peeks_pointer c2State 0 TypeTag.i64 9).1 1 [],
   (tac_set_peeks_pointer { c2State with stack := [] } 0 TypeTag.i64 9).2⟩

/-- A '#' survives the leading-whitespace skip ('#' is not whitespace). -/
theorem hash_mem_dropWhile (l : List Char) (h : '#' ∈ l) :
    '#' ∈ l.dropWhile isSpaceC := by
  induction l with
  | nil => simp at h
  | cons c cs ih =>
    rw [List.dropWhile_cons]
    by_cases hc : isSpaceC c
    · rcases List.mem_cons.mp h with hceq | hmem
      · exact absurd hc (by rw [← hceq]; decide)
      · simpa [hc] using ih hmem
    · simpa [hc] using h

/-- The first element delivered by dropWhile does not satisfy the predicate. -/
theorem dropWhile_head_not_space (l : List Char) (c : Char) (cs : List Char)
    (h : l.dropWhile isSpaceC = c :: cs) : isSpaceC c = false := by
  induction l with
  | nil => simp at h
  | cons a as ih =>
    rw [List.dropWhile_cons] at h
    by_cases ha : isSpaceC a
    · exact ih (by simpa [ha] using h)
    · rw [if_neg ha] at h
      cases h
      exact Bool.eq_false_iff.mpr ha

/-- The remainder returned by the token scan is no longer than its input. -/
theorem lex_scan_token_rest_len (l : List Char) :
    ∀ tok rest, lex_scan_token l = some (tok, rest) → rest.length ≤ l.length := by
  induction l with
  | nil =>
    intro tok rest h
    simp only [lex_scan_token, Option.some.injEq, Prod.mk.injEq] at h
    simp [← h.2]
  | cons c cs ih =>
    intro tok rest h
    simp only [lex_scan_token] at h
    by_cases hsp : isSpaceC c
    · rw [if_pos hsp] at h
      simp only [Option.some.injEq, Prod.mk.injEq] at h
      simp [← h.2]
    · rw [if_neg hsp] at h
      by_cases hh : c = '#'
      · rw [if_pos hh] at h
        exact Option.noConfusion h
      · rw [if_neg hh] at h
        cases hscan : lex_scan_token cs with
        | none => rw [hscan] at h; exact Option.noConfusion h
        | some pr =>
          rw [hscan] at h
          obtain ⟨tok2, rest2⟩ := pr
          simp only [Option.some.injEq, Prod.mk.injEq] at h
          have := ih tok2 rest2 hscan
          rw [← h.2]
          simp only [List.length_cons]
          omega

/-- The token scan cannot consume a '#': on success the '#' is still in the
remainder. -/
theorem lex_scan_token_hash (l : List Char) :
    ∀ tok rest, '#' ∈ l → lex_scan_token l = some (tok, rest) → '#' ∈ rest := by
  induction l with
  | nil => intro tok rest h; simp at h
  | cons c cs ih =>
    intro tok rest hmem h
    simp only [lex_scan_token] at h
    by_cases hsp : isSpaceC c
    · rw [if_pos hsp] at h
      simp only [Option.some.injEq, Prod.mk.injEq] at h
      rw [← h.2]
      exact hmem
    · rw [if_neg hsp] at h
      by_cases hh : c = '#'
      · rw [if_pos hh] at h
        exact Option.noConfusion h
      · rw [if_neg hh] at h
        have hcs : '#' ∈ cs := by
          rcases List.mem_cons.mp hmem with hceq | hmem2
          · exact absurd hceq.symm hh
          · exact hmem2
        cases hscan : lex_scan_token cs with
        | none => rw [hscan] at h; exact Option.noConfusion h
        | some pr =>
          rw [hscan] at h
          obtain ⟨tok2, rest2⟩ := pr
          simp only [Option.some.injEq, Prod.mk.injEq] at h
          rw [← h.2]
          exact ih tok2 rest2 hcs hscan

/-- dropWhile never lengthens a list. -/
theorem length_dropWhile_le_spaces (l : List Char) :
    (l.dropWhile isSpaceC).length ≤ l.length := by
  induction l with
  | nil => simp
  | cons c cs ih =>
    rw [List.dropWhile_cons]
    by_cases hc : isSpaceC c
    · simp only [hc, if_true, List.length_cons]
      omega
    · simp [hc]

/-- The tokenize loop rejects any input still containing a '#' (given enough
fuel, which lexer_tokenize_line always supplies). -/
theorem lex_loop_hash (fuel : Nat) :
    ∀ (l : List Char) (acc : List String), '#' ∈ l → l.length < fuel →
      lex_loop fuel l acc = .error (-2) := by
  induction fuel with
  | zero => intro l acc _ hlen; omega
  | succ f ih =>
    intro l acc h hlen
    have hdw := hash_mem_dropWhile l h
    cases hd : l.dropWhile isSpaceC with
    | nil => rw [hd] at hdw; simp at hdw
    | cons c cs =>
      rw [hd] at hdw
      have hcns : isSpaceC c = false := dropWhile_head_not_space l c cs hd
      simp only [lex_loop, hd]
      by_cases hc : c = '#'
      · simp [hc]
      · rw [if_neg hc]
        have hcs : '#' ∈ cs := by
          rcases List.mem_cons.mp hdw with hceq | hmem2
          · exact absurd hceq.symm hc
          · exact hmem2
        have hlen2 : (c :: cs).length ≤ l.length := by
          rw [← hd]; exact length_dropWhile_le_spaces l
        cases hscan : lex_scan_token (c :: cs) with
        | none => simp
        | some pr =>
          obtain ⟨tok, rest⟩ := pr
          have hscan2 : ∃ tok2 rest2, lex_scan_token cs = some (tok2, rest2) ∧
              tok = c :: tok2 ∧ rest = rest2 := by
            simp only [lex_scan_token, hcns, Bool.false_eq_true, if_false, hc,
              if_neg hc] at hscan
            cases hscan3 : lex_scan_token cs with
            | none => rw [hscan3] at hscan; simp at hscan
            | some pr2 =>
              rw [hscan3] at hscan
              obtain ⟨tok2, rest2⟩ := pr2
              simp at hscan
              exact ⟨tok2, rest2, rfl, hscan.1.symm, hscan.2.symm⟩
          obtain ⟨tok2, rest2, hscan4, htok, hrest⟩ := hscan2
          have hresthash : '#' ∈ rest := by
            rw [hrest]
            exact lex_scan_token_hash cs tok2 rest2 hcs hscan4
          have hrestlen : rest.length < f := by
            have h1 := lex_scan_token_rest_len cs tok2 rest2 hscan4
            have h2 : cs.length < l.length := by
              have := List.length_cons c cs
              omega
            rw [hrest]
            omega
          simp only []
          exact ih rest (String.mk tok :: acc) hresthash hrestlen

/-- Claim C8 (corrected): a line whose first non-whitespace character is '#'
does yield zero tokens, but a '#' after other content is NOT stripped as a
trailing comment: lexer_tokenize_line rejects the whole line with error code
-2 (and parse_rr_source then reports a tokenization error for the line). -/
theorem lexer_hash_comment_handling :
    (∀ l : List Char, (l.dropWhile isSpaceC).head? = some '#' →
      lexer_tokenize_line l = .ok []) ∧
    (∀ l : List Char, '#' ∈ l → (l.dropWhile isSpaceC).head? ≠ some '#' →
      lexer_tokenize_line l = .error (-2)) := by
  constructor
  · intro l hhead
    cases hd : l.dropWhile isSpaceC with
    | nil => rw [hd] at hhead; simp at hhead
    | cons c cs =>
      rw [hd] at hhead
      simp at hhead
      simp [lexer_tokenize_line, hd, hhead]
  · intro l h hhead
    have hdw := hash_mem_dropWhile l h
    cases hd : l.dropWhile isSpaceC with
    | nil => rw [hd] at hdw; simp at hdw
    | cons c cs =>
      rw [hd] at hhead
      have hc : ¬ c = '#' := fun hceq => hhead (by rw [hceq]; rfl)
      simp only [lexer_tokenize_line, hd, if_neg hc]
      exact lex_loop_hash (l.length + 1) l [] h (by omega)

/-- Witness for lexer_hash_comment_handling: a whole-line comment tokenizes to
zero tokens, and a concrete trailing comment is rejected with -2. -/
theorem lexer_hash_comment_handling_witness :
    lexer_tokenize_line (String.toList "  # whole line") = .ok [] ∧
    lexer_tokenize_line (String.toList "push i64 3 # note") = .error (-2) :=
  ⟨lexer_hash_comment_handling.1 (String.toList "  # whole line") rfl,
   lexer_hash_comment_handling.2 (String.toList "push i64 3 # note")
     (by decide) (by decide)⟩

/-- Counterexample to claim C8 as stated: on the concrete line
"push i64 3 # trailing" the tokenizer does not return the three tokens before
the '#'; it rejects the line with error code -2. -/
theorem lexer_trailing_comment_rejected :
    lexer_tokenize_line (String.toList "push i64 3 # trailing") = .error (-2) ∧
    lexer_tokenize_line (String.toList "push i64 3 # trailing") ≠
      .ok ["push", "i64", "3"] := by
  constructor
  · rfl
  · intro hcontra
    rw [show lexer_tokenize_line (String.toList "push i64 3 # trailing") =
        .error (-2) from rfl] at hcontra
    exact Except.noConfusion hcontra

/-- Claim C9 is violated by the code: on the IR [Ret, Ret] the first Ret
closes the implicit l0 clause, but the following non-label instruction does
NOT open a new implicit l0 clause — tac_dump_write only re-emits the "l0 :-"
head when curr_label differs from 0, so the second ret is printed as a
headless "  ret." line.  (When the Ret closes a labelled clause, as in
[Label 3, Ret, Const], a new l0 clause IS opened, matching the claim.) -/
theorem ret_in_l0_no_new_clause :
    tac_dump_write [tacRetInstr, tacRetInstr] = "l0 :-\n  ret.\n  ret.\n" ∧
    tac_dump_write [tacRetInstr, tacRetInstr] ≠ "l0 :-\n  ret.\n\nl0 :-\n  ret.\n" ∧
    tac_dump_write [tacLabelInstr 3, tacRetInstr, tacConstInstr 1 42 .i64] =
      "l3 :-\n  ret.\n\nl0 :-\n  const(t1, i64, 42).\n" := by
  refine ⟨by decide, ?_, by decide⟩
  intro hcontra
  rw [show tac_dump_write [tacRetInstr, tacRetInstr] = "l0 :-\n  ret.\n  ret.\n"
    from by decide] at hcontra
  exact absurd hcontra (by decide)

end RRVM
